import Mathlib

/-!
Verification of the Wajeez meeting-intelligence backend (src/server.js).

The development shallowly embeds the orchestration core of the server:
the JSON value model, the code-fence stripping applied to model replies
(the global regex replace at server.js:274/338/423/516), the four analysis
functions (generateMeetingSummary, extractTasks, generateImprovements,
factCheckTranscription), the audio-processing pipeline, the meeting store
(a JS Map), and the chat and meeting-history HTTP handlers.

External effects (the Gemini network calls) are modelled by passing each
outcome of each call in explicitly; `Date.now()` and `new Date().toISOString()`
are likewise inputs.  `JSON.parse` is embedded as a strict RFC-8259
recursive-descent decoder over the character list of the input string,
matching ECMAScript `JSON.parse` (last duplicate object key wins, keys keep
first-occurrence position; a lone UTF-16 surrogate escape, which a Lean
`String` cannot carry, is modelled as U+FFFD - no claim exercises that
corner).
-/

/-- JSON values as produced by `JSON.parse`.  Object fields keep insertion
order (JS property order).  A number is kept as mantissa and decimal
exponent, the value being `m * 10 ^ e`, so that nothing is lost to
floating-point rounding; no claim compares differently written numerals. -/
inductive Json where
  | null
  | bool (b : Bool)
  | num (m : Int) (e : Int)
  | str (s : String)
  | arr (items : List Json)
  | obj (fields : List (String × Json))

/-- JSON whitespace skipping (space, tab, line feed, carriage return). -/
def skipWs : List Char → List Char
  | [] => []
  | c :: rest =>
    if c == ' ' || c == '\t' || c == '\n' || c == '\x0d' then skipWs rest
    else c :: rest

/-- Value of a hexadecimal digit character. -/
def hexVal? (c : Char) : Option Nat :=
  if '0' ≤ c ∧ c ≤ '9' then some (c.toNat - '0'.toNat)
  else if 'a' ≤ c ∧ c ≤ 'f' then some (c.toNat - 'a'.toNat + 10)
  else if 'A' ≤ c ∧ c ≤ 'F' then some (c.toNat - 'A'.toNat + 10)
  else none

/-- Single-character JSON string escapes. -/
def escChar? (e : Char) : Option Char :=
  if e == '"' then some '"'
  else if e == '\\' then some '\\'
  else if e == '/' then some '/'
  else if e == 'b' then some '\x08'
  else if e == 'f' then some '\x0c'
  else if e == 'n' then some '\n'
  else if e == 'r' then some '\x0d'
  else if e == 't' then some '\t'
  else none

/-- Prepend a character to the content of a string-scan result. -/
def consStr (c : Char) : Option (List Char × List Char) → Option (List Char × List Char)
  | some (cs, r) => some (c :: cs, r)
  | none => none

/-- Scan the body of a JSON string literal (opening quote already consumed);
returns the decoded content and the remainder after the closing quote.
Raw control characters are rejected, escapes are decoded, `\uXXXX`
surrogate pairs are combined; a lone surrogate becomes U+FFFD (see the
file comment).  The fuel only bounds the scan length (every step consumes
at least one character, and `strAux` supplies length-plus-one fuel). -/
def strAuxF : Nat → List Char → Option (List Char × List Char)
  | 0, _ => none
  | _, [] => none
  | fuel + 1, c :: rest =>
    if c == '"' then some ([], rest)
    else if c == '\\' then
      match rest with
      | 'u' :: h1 :: h2 :: h3 :: h4 :: rest3 =>
        (match hexVal? h1, hexVal? h2, hexVal? h3, hexVal? h4 with
         | some a, some b, some c2, some d =>
           let code := ((a * 16 + b) * 16 + c2) * 16 + d
           if 0xD800 ≤ code ∧ code ≤ 0xDBFF then
             match rest3 with
             | '\\' :: 'u' :: k1 :: k2 :: k3 :: k4 :: rest4 =>
               (match hexVal? k1, hexVal? k2, hexVal? k3, hexVal? k4 with
                | some a2, some b2, some c3, some d2 =>
                  let lo := ((a2 * 16 + b2) * 16 + c3) * 16 + d2
                  if 0xDC00 ≤ lo ∧ lo ≤ 0xDFFF then
                    consStr (Char.ofNat (0x10000 + (code - 0xD800) * 0x400 + (lo - 0xDC00)))
                      (strAuxF fuel rest4)
                  else consStr '�' (strAuxF fuel ('\\' :: 'u' :: k1 :: k2 :: k3 :: k4 :: rest4))
                | _, _, _, _ =>
                  consStr '�' (strAuxF fuel ('\\' :: 'u' :: k1 :: k2 :: k3 :: k4 :: rest4)))
             | r3 => consStr '�' (strAuxF fuel r3)
           else if 0xDC00 ≤ code ∧ code ≤ 0xDFFF then
             consStr '�' (strAuxF fuel rest3)
           else consStr (Char.ofNat code) (strAuxF fuel rest3)
         | _, _, _, _ => none)
      | e :: rest2 =>
        (match escChar? e with
         | some ch => consStr ch (strAuxF fuel rest2)
         | none => none)
      | [] => none
    else if c.toNat < 0x20 then none
    else consStr c (strAuxF fuel rest)

/-- String-literal scan with adequate fuel. -/
def strAux (l : List Char) : Option (List Char × List Char) :=
  strAuxF (l.length + 1) l

/-- Accumulate a run of decimal digits: value so far, digit count, remainder. -/
def digitsAux : Nat → Nat → List Char → Nat × Nat × List Char
  | v, n, [] => (v, n, [])
  | v, n, c :: rest =>
    if '0' ≤ c ∧ c ≤ '9' then digitsAux (v * 10 + (c.toNat - '0'.toNat)) (n + 1) rest
    else (v, n, c :: rest)

/-- Parse the optional exponent part of a JSON number. -/
def parseExp (m : Int) (e : Int) (l : List Char) : Option (Json × List Char) :=
  match l with
  | c :: rest =>
    if c == 'e' || c == 'E' then
      match rest with
      | '+' :: r2 =>
        (match digitsAux 0 0 r2 with
         | (v, n, r3) => if n == 0 then none else some (.num m (e + (v : Int)), r3))
      | '-' :: r2 =>
        (match digitsAux 0 0 r2 with
         | (v, n, r3) => if n == 0 then none else some (.num m (e - (v : Int)), r3))
      | r2 =>
        (match digitsAux 0 0 r2 with
         | (v, n, r3) => if n == 0 then none else some (.num m (e + (v : Int)), r3))
    else some (.num m e, c :: rest)
  | [] => some (.num m e, [])

/-- Parse the optional fraction part of a JSON number, given the integer
part `i` and its sign. -/
def parseFrac (neg : Bool) (i : Nat) (l : List Char) : Option (Json × List Char) :=
  match l with
  | '.' :: r =>
    (match digitsAux 0 0 r with
     | (v, n, r2) =>
       if n == 0 then none
       else
         let mag : Int := (i * 10 ^ n + v : Nat)
         parseExp (if neg then -mag else mag) (-(n : Int)) r2)
  | _ => parseExp (if neg then -(i : Int) else (i : Int)) 0 l

/-- Parse a strict JSON number (`-?(0|[1-9][0-9]*)(\.[0-9]+)?([eE][+-]?[0-9]+)?`). -/
def parseNum (l : List Char) : Option (Json × List Char) :=
  let signSplit : Bool × List Char := match l with
    | '-' :: r => (true, r)
    | _ => (false, l)
  match signSplit with
  | (neg, l1) =>
    match l1 with
    | '0' :: r =>
      if (match r with | c :: _ => c.isDigit | [] => false) then none
      else parseFrac neg 0 r
    | c :: r =>
      if c.isDigit then
        match digitsAux 0 0 (c :: r) with
        | (v, _, r2) => parseFrac neg v r2
      else none
    | [] => none

/-- Insert a field into a JS object: an existing key keeps its position and
takes the new value (JS property assignment), a new key is appended. -/
def objInsert : List (String × Json) → String → Json → List (String × Json)
  | [], k, v => [(k, v)]
  | (k', v') :: rest, k, v =>
    if k' = k then (k, v) :: rest else (k', v') :: objInsert rest k v

mutual

/-- Recursive-descent JSON value parser (fuel-indexed; the fuel is an upper
bound on recursion depth, generous at call sites). -/
def parseVal : Nat → List Char → Option (Json × List Char)
  | 0, _ => none
  | fuel + 1, l =>
    match skipWs l with
    | 'n' :: 'u' :: 'l' :: 'l' :: rest => some (.null, rest)
    | 't' :: 'r' :: 'u' :: 'e' :: rest => some (.bool true, rest)
    | 'f' :: 'a' :: 'l' :: 's' :: 'e' :: rest => some (.bool false, rest)
    | '"' :: rest =>
      (match strAux rest with
       | some (cs, r) => some (.str (String.mk cs), r)
       | none => none)
    | '[' :: rest =>
      (match skipWs rest with
       | ']' :: r2 => some (.arr [], r2)
       | r2 =>
         match parseItems fuel r2 with
         | some (vs, r3) => some (.arr vs, r3)
         | none => none)
    | '\x7b' :: rest =>
      (match skipWs rest with
       | '\x7d' :: r2 => some (.obj [], r2)
       | r2 =>
         match parseFields fuel [] r2 with
         | some (fs, r3) => some (.obj fs, r3)
         | none => none)
    | l2 => parseNum l2

/-- Parse the comma-separated items of a non-empty JSON array, up to and
including the closing bracket. -/
def parseItems : Nat → List Char → Option (List Json × List Char)
  | 0, _ => none
  | fuel + 1, l =>
    match parseVal fuel l with
    | none => none
    | some (v, r) =>
      match skipWs r with
      | ',' :: r2 =>
        (match parseItems fuel r2 with
         | some (vs, r3) => some (v :: vs, r3)
         | none => none)
      | ']' :: r2 => some ([v], r2)
      | _ => none

/-- Parse the members of a non-empty JSON object, up to and including the
closing brace; duplicate keys follow JS semantics via `objInsert`. -/
def parseFields : Nat → List (String × Json) → List Char →
    Option (List (String × Json) × List Char)
  | 0, _, _ => none
  | fuel + 1, acc, l =>
    match skipWs l with
    | '"' :: rest =>
      (match strAux rest with
       | none => none
       | some (cs, r1) =>
         match skipWs r1 with
         | ':' :: r2 =>
           (match parseVal fuel r2 with
            | none => none
            | some (v, r3) =>
              let acc2 := objInsert acc (String.mk cs) v
              match skipWs r3 with
              | ',' :: r4 => parseFields fuel acc2 r4
              | '\x7d' :: r4 => some (acc2, r4)
              | _ => none)
         | _ => none)
    | _ => none

end

/-- Strict JSON decoding of a whole string: embedding of ECMAScript
`JSON.parse` (trailing whitespace allowed, anything else after the value
rejected). -/
def Json.parse (s : String) : Option Json :=
  match parseVal (2 * s.data.length + 2) s.data with
  | some (v, rest) => if skipWs rest = [] then some v else none
  | none => none

/-! ## Code-fence stripping

server.js applies `text.replace(/\x60\x60\x60json\n?|\n?\x60\x60\x60/g, '')`
before `JSON.parse` (lines 274, 338, 423, 516).  The regex is global: it
removes every occurrence, scanning left to right, trying the first
alternative (greedy optional trailing newline) before the second (greedy
optional leading newline). -/

/-- Boolean list-prefix test (`leadsWith p l` holds when `p` begins `l`). -/
def leadsWith : List Char → List Char → Bool
  | [], _ => true
  | _ :: _, [] => false
  | p :: ps, c :: cs => c == p && leadsWith ps cs

def fenceJsonNl : List Char := ['\x60', '\x60', '\x60', 'j', 's', 'o', 'n', '\n']
def fenceJson : List Char := ['\x60', '\x60', '\x60', 'j', 's', 'o', 'n']
def nlFence : List Char := ['\n', '\x60', '\x60', '\x60']
def fence3 : List Char := ['\x60', '\x60', '\x60']

/-- At the current position, how many characters the fence regex consumes
(`none` when the regex does not match here).  The alternatives are tried
in the order the ECMAScript regex engine tries them. -/
def fenceMatch (l : List Char) : Option Nat :=
  if leadsWith fenceJsonNl l then some 8
  else if leadsWith fenceJson l then some 7
  else if leadsWith nlFence l then some 4
  else if leadsWith fence3 l then some 3
  else none

/-- Left-to-right global replacement of fence matches with the empty string.
Every step consumes at least one character, so length-sized fuel is always
enough; the out-of-fuel arm is never reached from `stripFences`. -/
def fenceAuxF : Nat → List Char → List Char
  | 0, l => l
  | _, [] => []
  | fuel + 1, c :: rest =>
    match fenceMatch (c :: rest) with
    | some k => fenceAuxF fuel (List.drop (k - 1) rest)
    | none => c :: fenceAuxF fuel rest

/-- Embedding of `text.replace(/\x60\x60\x60json\n?|\n?\x60\x60\x60/g, '')`. -/
def stripFences (s : String) : String :=
  String.mk (fenceAuxF s.data.length s.data)

/-- Three consecutive backticks occur somewhere in the list. -/
def hasTriple : List Char → Bool
  | a :: b :: c :: rest =>
    (a == '\x60' && b == '\x60' && c == '\x60') || hasTriple (b :: c :: rest)
  | _ => false

/-! ## The four analysis functions

Each analysis function of server.js makes one model call on its own prompt,
strips fences from the reply, tries `JSON.parse`, and on any failure inside
its `try` blocks substitutes a fixed object.  The outcome of the network call is
passed in as a `GatewayOutcome`. -/

/-- Outcome of one model-gateway call: the reply text, or a thrown error
with its message. -/
inductive GatewayOutcome where
  | ok (text : String)
  | error (message : String)
deriving DecidableEq

/-- Parse-failure fallback of `generateMeetingSummary` (server.js:276-283). -/
def summaryFallback : Json :=
  .obj [("overview", .str "Failed to parse summary"),
        ("keyPoints", .arr []),
        ("decisions", .arr []),
        ("insights", .arr []),
        ("outcomes", .arr []),
        ("nextSteps", .arr [])]

/-- Embedding of `generateMeetingSummary` (server.js:225-292), as a function
of the outcome of the model call. -/
def generateMeetingSummary (resp : GatewayOutcome) : Json :=
  match resp with
  | .error msg =>
    .obj [("error", .str "Failed to generate summary"), ("message", .str msg)]
  | .ok text =>
    match Json.parse (stripFences text) with
    | some v => v
    | none => summaryFallback

/-- Field lookup in a JS object (first occurrence; parsed objects have
distinct keys). -/
def jlookup : List (String × Json) → String → Option Json
  | [], _ => none
  | (k', v) :: rest, k => if k' = k then some v else jlookup rest k

/-- JS property read `v.k`: `none` models `undefined`. -/
def jget : Json → String → Option Json
  | .obj fs, k => jlookup fs k
  | _, _ => none

def isNullJson : Json → Bool
  | .null => true
  | _ => false

/-- Embedding of the JS test `t.priority === "high"` for an array element
`t` (reading a property of a non-object non-null value yields `undefined`,
which is not the string). -/
def isHighPriority (t : Json) : Bool :=
  match t with
  | .obj fs =>
    (match jlookup fs "priority" with
     | some (.str s) => s == "high"
     | _ => false)
  | _ => false

/-- Embedding of the JS test `t.assignedTo === "Unassigned"`. -/
def isUnassigned (t : Json) : Bool :=
  match t with
  | .obj fs =>
    (match jlookup fs "assignedTo" with
     | some (.str s) => s == "Unassigned"
     | _ => false)
  | _ => false

/-- The four counter assignments of server.js:340-343, in source order
(`data.totalTasks`, `data.highPriorityCount`, `data.assignedCount`,
`data.unassignedCount`); the test `t.assignedTo !== "Unassigned"` is the
negation of the `===` test. -/
def withCounts (fs : List (String × Json)) (ts : List Json) : List (String × Json) :=
  let fs1 := objInsert fs "totalTasks" (.num (ts.length : Int) 0)
  let fs2 := objInsert fs1 "highPriorityCount" (.num ((ts.filter isHighPriority).length : Int) 0)
  let fs3 := objInsert fs2 "assignedCount"
    (.num ((ts.filter (fun t => !isUnassigned t)).length : Int) 0)
  objInsert fs3 "unassignedCount" (.num ((ts.filter isUnassigned).length : Int) 0)

/-- Parse-failure fallback of `extractTasks` (server.js:346-353). -/
def tasksFallback : Json :=
  .obj [("tasks", .arr []),
        ("followUpItems", .arr []),
        ("totalTasks", .num 0 0),
        ("highPriorityCount", .num 0 0),
        ("assignedCount", .num 0 0),
        ("unassignedCount", .num 0 0)]

/-- Embedding of `extractTasks` (server.js:295-363).  The counter
recomputation sits inside the same `try` as `JSON.parse`, so any of its
`TypeError`s (decoded value not an object, no `tasks` array, a `null`
element) also lands in the parse fallback. -/
def extractTasks (resp : GatewayOutcome) : Json :=
  match resp with
  | .error _ =>
    .obj [("error", .str "Failed to extract tasks"),
          ("tasks", .arr []),
          ("followUpItems", .arr [])]
  | .ok text =>
    match Json.parse (stripFences text) with
    | none => tasksFallback
    | some data =>
      match data with
      | .obj fs =>
        (match jlookup fs "tasks" with
         | some (.arr ts) =>
           if ts.any isNullJson then tasksFallback
           else .obj (withCounts fs ts)
         | _ => tasksFallback)
      | _ => tasksFallback

/-- Parse-failure fallback of `generateImprovements` (server.js:425-432). -/
def improvementsFallback : Json :=
  .obj [("effectivenessScore", .num 0 0),
        ("scoreRationale", .str "Unable to analyze"),
        ("strengths", .arr []),
        ("improvements", .obj []),
        ("recommendations", .arr []),
        ("bestPractices", .arr [])]

/-- Embedding of `generateImprovements` (server.js:366-441). -/
def generateImprovements (resp : GatewayOutcome) : Json :=
  match resp with
  | .error msg =>
    .obj [("error", .str "Failed to generate improvements"), ("message", .str msg)]
  | .ok text =>
    match Json.parse (stripFences text) with
    | some v => v
    | none => improvementsFallback

/-- Parse-failure fallback of `factCheckTranscription` (server.js:518-526). -/
def factCheckFallback : Json :=
  .obj [("transcriptionQuality",
          .obj [("rating", .str "unknown"), ("score", .num 0 0), ("issues", .arr [])]),
        ("potentialErrors", .arr []),
        ("factualClaims", .arr []),
        ("inconsistencies", .arr []),
        ("dataPoints", .arr []),
        ("technicalTerms", .arr []),
        ("recommendations", .arr [])]

/-- Embedding of `factCheckTranscription` (server.js:444-535). -/
def factCheckTranscription (resp : GatewayOutcome) : Json :=
  match resp with
  | .error msg =>
    .obj [("error", .str "Failed to perform fact-check"), ("message", .str msg)]
  | .ok text =>
    match Json.parse (stripFences text) with
    | some v => v
    | none => factCheckFallback

/-! ## Meeting records and the meeting store

`meetingDatabase` (server.js:19) is a JS `Map`; it is modelled as an
insertion-ordered association list.  `Map.prototype.set` keeps the position
of an existing key and updates its value, and appends a new key;
`Array.from(map.values())` yields values in that insertion order. -/

/-- One processed meeting (server.js:97-106). -/
structure Meeting where
  id : String
  filename : String
  timestamp : String
  transcription : String
  summary : Json
  tasks : Json
  improvements : Json
  factCheck : Json

abbrev Store : Type := List (String × Meeting)

/-- Embedding of `meetingDatabase.set(id, meeting)` (server.js:108). -/
def mapSet : Store → String → Meeting → Store
  | [], k, v => [(k, v)]
  | (k', v') :: rest, k, v =>
    if k' = k then (k, v) :: rest else (k', v') :: mapSet rest k v

/-- Embedding of `meetingDatabase.get(id)` and `has(id)` (server.js:153-154, 554). -/
def mapGet : Store → String → Option Meeting
  | [], _ => none
  | (k', v) :: rest, k => if k' = k then some v else mapGet rest k

/-- ECMAScript `Number.prototype.toString()` (radix 10) on a natural
number, as used for `Date.now().toString()` (server.js:60): the decimal
digit string, most significant first, and `"0"` for zero. -/
def natDecimal (n : Nat) : String :=
  if n = 0 then "0" else String.mk (((Nat.digits 10 n).map Nat.digitChar).reverse)

/-! ## The audio-processing pipeline -/

/-- Everything the `/api/process-audio` handler reads from outside:
the clock and timestamp, the metadata of the upload, and the outcome of each of
the five model calls (the four analyses each make exactly one call). -/
structure PipelineEnv where
  now : Nat
  originalname : String
  size : Nat
  timestampIso : String
  transcriptionResp : GatewayOutcome
  summaryResp : GatewayOutcome
  tasksResp : GatewayOutcome
  improvementsResp : GatewayOutcome
  factCheckResp : GatewayOutcome

/-- An HTTP response: `res.json(body)` or `res.status(code).json(body)`
(a `null` body stands for the non-JSON page of the default error handler
of the framework). -/
inductive HttpResult where
  | ok (body : Json)
  | err (status : Nat) (body : Json)

/-- The Meeting record assembled at server.js:97-106 from a non-empty
transcription `t`. -/
def meetingOf (env : PipelineEnv) (t : String) : Meeting :=
  { id := natDecimal env.now
    filename := env.originalname
    timestamp := env.timestampIso
    transcription := t
    summary := generateMeetingSummary env.summaryResp
    tasks := extractTasks env.tasksResp
    improvements := generateImprovements env.improvementsResp
    factCheck := factCheckTranscription env.factCheckResp }

/-- The 200 response body of `/api/process-audio` (server.js:115-126). -/
def successBody (env : PipelineEnv) (t : String) : Json :=
  .obj [("success", .bool true),
        ("meetingId", .str (natDecimal env.now)),
        ("transcription", .str t),
        ("summary", generateMeetingSummary env.summaryResp),
        ("tasks", extractTasks env.tasksResp),
        ("improvements", generateImprovements env.improvementsResp),
        ("factCheck", factCheckTranscription env.factCheckResp),
        ("filename", .str env.originalname),
        ("filesize", .num (env.size : Int) 0),
        ("timestamp", .str env.timestampIso)]

/-- Embedding of the `/api/process-audio` handler (server.js:52-141) from
the point where a valid file is present: transcription failure (a thrown
gateway error, rethrown with the `Failed to transcribe audio with
Gemini: ` prefix at server.js:220, or an empty text, server.js:68-70)
reaches the catch block and answers 500 without touching the store; any
other outcome stores the meeting and answers 200. -/
def processAudio (env : PipelineEnv) (db : Store) : HttpResult × Store :=
  match env.transcriptionResp with
  | .error msg =>
    (.err 500 (.obj [("error", .str "Failed to process audio file"),
                     ("details", .str ("Failed to transcribe audio with Gemini: " ++ msg))]),
     db)
  | .ok t =>
    if t = "" then
      (.err 500 (.obj [("error", .str "Failed to process audio file"),
                       ("details", .str "Failed to transcribe audio")]),
       db)
    else
      let m := meetingOf env t
      (.ok (successBody env t), mapSet db m.id m)

/-! ## The chat handler -/

/-- ECMAScript ToString on an integral number, used only through template
interpolation.  The non-integer branch is a placeholder: ECMAScript
float formatting is out of scope and no claim exercises it. -/
def jsNumToString (m : Int) (e : Int) : String :=
  if 0 ≤ e then (m * 10 ^ e.toNat).repr
  else m.repr ++ "e" ++ e.repr

mutual

/-- ECMAScript ToString of a parsed JSON value, as produced by template
interpolation: plain objects give `[object Object]`, arrays join their
members with commas (null members become empty). -/
def jsToString : Json → String
  | .null => "null"
  | .bool true => "true"
  | .bool false => "false"
  | .num m e => jsNumToString m e
  | .str s => s
  | .arr xs => jsJoin xs
  | .obj _ => "[object Object]"

/-- Embedding of `Array.prototype.join(",")` on parsed JSON members. -/
def jsJoin : List Json → String
  | [] => ""
  | [Json.null] => ""
  | [x] => jsToString x
  | Json.null :: xs => "," ++ jsJoin xs
  | x :: xs => jsToString x ++ "," ++ jsJoin xs

end

/-- The context template literal of server.js:155-162, exactly as written
(eight-space indented lines, an eight-space blank line, a six-space
closing line), with the transcription, summary and tasks of the meeting
interpolated. -/
def chatContextBlock (m : Meeting) : String :=
  "\n        Context from the meeting:\n        Transcription: " ++ m.transcription ++
  "\n        Summary: " ++ jsToString m.summary ++
  "\n        Tasks: " ++ jsToString m.tasks ++
  "\n        \n        Based on this meeting context, please answer the following question:\n      "

/-- The fixed output-language directive appended at server.js:166. -/
def englishDirective : String := "\n\nIMPORTANT: Respond in ENGLISH only."

/-- The prompt assembled by the `/api/chat` handler (server.js:152-166):
the context block is prepended exactly when `meetingId` is truthy (a
non-empty string) and present in the store. -/
def chatPrompt (meetingId : Option String) (message : String) (db : Store) : String :=
  (match meetingId with
   | some mid =>
     if mid = "" then ""
     else
       match mapGet db mid with
       | some m => chatContextBlock m
       | none => ""
   | none => "") ++ message ++ englishDirective

/-- Embedding of the `/api/chat` handler (server.js:144-183). -/
def chatHandler (message : Option String) (meetingId : Option String)
    (db : Store) (gw : String → GatewayOutcome) : HttpResult :=
  match message with
  | none => .err 400 (.obj [("error", .str "No message provided")])
  | some msg =>
    if msg = "" then .err 400 (.obj [("error", .str "No message provided")])
    else
      match gw (chatPrompt meetingId msg db) with
      | .ok txt => .ok (.obj [("success", .bool true), ("response", .str txt)])
      | .error emsg =>
        .err 500 (.obj [("error", .str "Failed to process chat message"),
                        ("details", .str emsg)])

/-! ## The meeting-history handler -/

def jsonIsStr : Json → Bool
  | .str _ => true
  | _ => false

def jsonStrOf : Json → String
  | .str s => s
  | _ => ""

/-- Embedding of `m.summary.substring(0, 200) + "..."` (server.js:543) when
`summary` is a string. -/
def meetingSummaryText (m : Meeting) : String :=
  (jsonStrOf m.summary).take 200 ++ "..."

/-- One entry of the `/api/meetings` listing (server.js:539-544). -/
def meetingView (m : Meeting) : Json :=
  .obj [("id", .str m.id),
        ("filename", .str m.filename),
        ("timestamp", .str m.timestamp),
        ("summary", .str (meetingSummaryText m))]

/-- The mapping step of server.js:539-544 for one meeting:
`m.summary.substring` is only a function when `summary` is a string; on
any other value the handler throws a `TypeError`. -/
def meetingView? (m : Meeting) : Option Json :=
  if jsonIsStr m.summary then some (meetingView m) else none

/-- Embedding of `Array.from(meetingDatabase.values()).map(...)`, stopping
at the first throwing element. -/
def viewsOf : Store → Option (List Json)
  | [] => some []
  | (_, m) :: rest =>
    match meetingView? m, viewsOf rest with
    | some v, some vs => some (v :: vs)
    | _, _ => none

/-- Embedding of the `GET /api/meetings` handler (server.js:538-550): the
views in insertion order, reversed; a thrown `TypeError` reaches the
default error handler of the framework, a 500 with a non-JSON body. -/
def getMeetings (db : Store) : HttpResult :=
  match viewsOf db with
  | some vs => .ok (.obj [("success", .bool true), ("meetings", .arr vs.reverse)])
  | none => .err 500 .null

/-- The store produced by a sequence of uploads inserting `ms` in order
into an empty store. -/
def buildStore (ms : List Meeting) : Store :=
  ms.foldl (fun db m => mapSet db m.id m) []


/-! ## Specification predicates and concrete fixtures -/

/-- Numeric value of a decimal digit character. -/
def charDigit (c : Char) : Nat := c.toNat - 48

/-- Read a decimal digit string back into a natural number. -/
def decStrToNat (s : String) : Nat :=
  Nat.ofDigits 10 ((s.data.map charDigit).reverse)

/-- The TaskList counter invariant of the spec, read off a produced JSON value:
`totalTasks` equals the length of `tasks`, `highPriorityCount` counts the
`priority == "high"` entries, `assignedCount` counts the
`assignedTo != "Unassigned"` entries, and
`assignedCount + unassignedCount == totalTasks`. -/
def taskCountersOk (out : Json) : Prop :=
  ∃ fs ts,
    out = Json.obj fs ∧
    jlookup fs "tasks" = some (.arr ts) ∧
    jlookup fs "totalTasks" = some (.num (ts.length : Int) 0) ∧
    jlookup fs "highPriorityCount"
      = some (.num ((ts.filter isHighPriority).length : Int) 0) ∧
    jlookup fs "assignedCount"
      = some (.num ((ts.filter fun t => !isUnassigned t).length : Int) 0) ∧
    ∃ un : Int, jlookup fs "unassignedCount" = some (.num un 0) ∧
      ((ts.filter fun t => !isUnassigned t).length : Int) + un = (ts.length : Int)

/-- A request whose transcription succeeds but whose four analysis replies
are all malformed (non-JSON) text. -/
def envParseFail : PipelineEnv :=
  ⟨1700000000000, "standup.mp3", 2048, "2023-11-14T22:13:20.000Z",
   .ok "Speaker 1: hello", .ok "not json", .ok "also not json",
   .ok "nor this", .ok "still not json"⟩

/-- A request whose transcription succeeds but whose four analysis calls all
throw at the gateway. -/
def envGatewayErr : PipelineEnv :=
  ⟨1700000000001, "retro.wav", 4096, "2023-11-14T22:13:21.000Z",
   .ok "Speaker 1: numbers", .error "429 rate limit", .error "429 rate limit",
   .error "429 rate limit", .error "429 rate limit"⟩

/-- A request whose transcription comes back empty. -/
def envEmptyTr : PipelineEnv :=
  ⟨1700000000002, "silence.ogg", 64, "2023-11-14T22:13:22.000Z",
   .ok "", .ok "\x7b\x7d", .ok "\x7b\x7d", .ok "\x7b\x7d", .ok "\x7b\x7d"⟩

/-- Two uploads whose handlers capture the same `Date.now()` value. -/
def envUpload1 : PipelineEnv :=
  ⟨1700000000003, "a.mp3", 100, "2023-11-14T22:13:23.000Z",
   .ok "first meeting", .error "e", .error "e", .error "e", .error "e"⟩

def envUpload2 : PipelineEnv :=
  ⟨1700000000003, "b.mp3", 200, "2023-11-14T22:13:24.000Z",
   .ok "second meeting", .error "e", .error "e", .error "e", .error "e"⟩

/-- Stored meetings whose summaries are plain text. -/
def mtgA : Meeting :=
  ⟨"1700000000010", "a.mp3", "2023-11-14T22:13:25.000Z", "transcript one",
   .str "Summary of the first meeting", tasksFallback, improvementsFallback,
   factCheckFallback⟩

def mtgB : Meeting :=
  ⟨"1700000000011", "b.mp3", "2023-11-14T22:13:26.000Z", "transcript two",
   .str "Summary of the second meeting", tasksFallback, improvementsFallback,
   factCheckFallback⟩

/-- A meeting whose summary is the structured object every normal pipeline
run stores (here the parse fallback, itself an object). -/
def mtgBad : Meeting :=
  ⟨"1700000000012", "c.mp3", "2023-11-14T22:13:27.000Z", "transcript three",
   summaryFallback, tasksFallback, improvementsFallback, factCheckFallback⟩

/-- A stored meeting used by the chat witnesses. -/
def mtgChat : Meeting :=
  ⟨"1700000000013", "e.mp3", "2023-11-14T22:13:28.000Z",
   "Speaker 1: we ship Friday", .obj [("overview", .str "shipping")],
   .obj [("tasks", .arr [])], improvementsFallback, factCheckFallback⟩

/-! ## Lemmas: decimal id strings -/

theorem charDigit_digitChar : ∀ d, d < 10 → charDigit (Nat.digitChar d) = d := by decide

theorem decStrToNat_natDecimal (n : Nat) : decStrToNat (natDecimal n) = n := by
  unfold natDecimal decStrToNat
  by_cases h : n = 0
  · subst h; rfl
  · rw [if_neg h]
    have hdata : (String.mk (((Nat.digits 10 n).map Nat.digitChar).reverse)).data
        = ((Nat.digits 10 n).map Nat.digitChar).reverse := rfl
    rw [hdata, List.map_reverse, List.reverse_reverse, List.map_map]
    have hmap : (Nat.digits 10 n).map (charDigit ∘ Nat.digitChar) = Nat.digits 10 n := by
      have hid : ∀ d ∈ Nat.digits 10 n, (charDigit ∘ Nat.digitChar) d = id d := by
        intro d hd
        exact charDigit_digitChar d (Nat.digits_lt_base (by norm_num) hd)
      rw [List.map_congr_left hid, List.map_id]
    rw [hmap, Nat.ofDigits_digits]

theorem natDecimal_injective {m n : Nat} (h : natDecimal m = natDecimal n) : m = n := by
  have := congrArg decStrToNat h
  rwa [decStrToNat_natDecimal, decStrToNat_natDecimal] at this

/-! ## Lemmas: fence stripping -/

theorem leadsWith_append (p r : List Char) : leadsWith p (p ++ r) = true := by
  induction p with
  | nil => rfl
  | cons c cs ih => simp [leadsWith, ih]

theorem leadsWith_of_concat (p q l : List Char) (h : leadsWith (p ++ q) l = true) :
    leadsWith p l = true := by
  induction p generalizing l with
  | nil => rfl
  | cons c cs ih =>
    cases l with
    | nil => simp [leadsWith] at h
    | cons a as =>
      simp only [List.cons_append, leadsWith, Bool.and_eq_true] at h ⊢
      exact ⟨h.1, ih as h.2⟩

theorem fenceMatch_eq_none (l : List Char)
    (h3 : leadsWith fence3 l = false) (h4 : leadsWith nlFence l = false) :
    fenceMatch l = none := by
  have hj8 : leadsWith fenceJsonNl l = false := by
    cases hc : leadsWith fenceJsonNl l with
    | false => rfl
    | true =>
      have hpre := leadsWith_of_concat fence3 ['j', 's', 'o', 'n', '\n'] l hc
      rw [h3] at hpre
      exact Bool.noConfusion hpre
  have hj7 : leadsWith fenceJson l = false := by
    cases hc : leadsWith fenceJson l with
    | false => rfl
    | true =>
      have hpre := leadsWith_of_concat fence3 ['j', 's', 'o', 'n'] l hc
      rw [h3] at hpre
      exact Bool.noConfusion hpre
  simp [fenceMatch, hj8, hj7, h3, h4]

theorem hasTriple_tail (c : Char) (l : List Char) (h : hasTriple (c :: l) = false) :
    hasTriple l = false := by
  match l with
  | [] => rfl
  | [a] => rfl
  | a :: b :: r =>
    simp only [hasTriple, Bool.or_eq_false_iff] at h
    exact h.2

theorem fenceMatch_concat_none (c : Char) (rest : List Char)
    (h : hasTriple (c :: rest) = false) :
    fenceMatch ((c :: rest) ++ nlFence) = none := by
  apply fenceMatch_eq_none
  · match rest with
    | [] => simp [leadsWith, fence3, nlFence]
    | [c2] => simp [leadsWith, fence3, nlFence]
    | c2 :: c3 :: r =>
      simp only [hasTriple, Bool.or_eq_false_iff, Bool.and_eq_false_iff] at h
      simp only [List.cons_append, leadsWith, fence3, Bool.and_true, Bool.and_eq_false_iff]
      tauto
  · match rest with
    | [] => simp [leadsWith, fence3, nlFence]
    | [c2] => simp [leadsWith, fence3, nlFence]
    | [c2, c3] => simp [leadsWith, fence3, nlFence]
    | c2 :: c3 :: c4 :: r =>
      have h2 := hasTriple_tail c _ h
      simp only [hasTriple, Bool.or_eq_false_iff, Bool.and_eq_false_iff] at h2
      simp only [List.cons_append, leadsWith, nlFence, Bool.and_true, Bool.and_eq_false_iff]
      tauto

theorem fenceAuxF_nil (fuel : Nat) : fenceAuxF fuel [] = [] := by
  cases fuel <;> rfl

theorem fenceAuxF_concat : ∀ (fuel : Nat) (l : List Char), l.length + 1 ≤ fuel →
    hasTriple l = false → fenceAuxF fuel (l ++ nlFence) = l := by
  intro fuel
  induction fuel with
  | zero => intro l hl _; omega
  | succ f ih =>
    intro l hl htrip
    cases l with
    | nil =>
      show fenceAuxF (f + 1) nlFence = []
      have hm : fenceMatch nlFence = some 4 := rfl
      simp only [nlFence, fenceAuxF, hm]
      exact fenceAuxF_nil f
    | cons c rest =>
      have hm := fenceMatch_concat_none c rest htrip
      rw [List.cons_append] at hm ⊢
      simp only [fenceAuxF, hm]
      rw [ih rest (by simp at hl; omega) (hasTriple_tail c rest htrip)]

theorem stripFences_wrapped (x : String) (h : hasTriple x.data = false) :
    stripFences ("\x60\x60\x60json\n" ++ x ++ "\n\x60\x60\x60") = x := by
  obtain ⟨l⟩ := x
  unfold stripFences
  have hdata : ("\x60\x60\x60json\n" ++ String.mk l ++ "\n\x60\x60\x60").data
      = fenceJsonNl ++ (l ++ nlFence) := by
    rw [String.data_append, String.data_append]
    simp [fenceJsonNl, nlFence]
  rw [hdata]
  have hlen : (fenceJsonNl ++ (l ++ nlFence)).length = l.length + 12 := by
    simp [fenceJsonNl, nlFence]
  rw [hlen]
  have hm : fenceMatch (fenceJsonNl ++ (l ++ nlFence)) = some 8 := by
    simp [fenceMatch, leadsWith_append]
  have hshape : fenceJsonNl ++ (l ++ nlFence)
      = '\x60' :: ('\x60' :: '\x60' :: 'j' :: 's' :: 'o' :: 'n' :: '\n' :: (l ++ nlFence)) := rfl
  rw [hshape] at hm ⊢
  rw [show l.length + 12 = (l.length + 11) + 1 from rfl]
  simp only [fenceAuxF, hm]
  rw [show List.drop (8 - 1) ('\x60' :: '\x60' :: 'j' :: 's' :: 'o' :: 'n' :: '\n' :: (l ++ nlFence)) = l ++ nlFence from rfl]
  rw [fenceAuxF_concat (l.length + 11) l (by omega) h]

/-! ## Lemmas: the meeting store -/

theorem mapSet_fresh (db : Store) (k : String) (v : Meeting)
    (h : ∀ p ∈ db, p.1 ≠ k) : mapSet db k v = db ++ [(k, v)] := by
  induction db with
  | nil => rfl
  | cons p rest ih =>
    obtain ⟨k', v'⟩ := p
    have hne : k' ≠ k := h (k', v') (List.mem_cons_self _ _)
    simp only [mapSet, if_neg hne, List.cons_append, List.cons.injEq, true_and]
    exact ih (fun q hq => h q (List.mem_cons_of_mem _ hq))

theorem mapSet_overwrite (db : Store) (k : String) (v1 v2 : Meeting) :
    mapSet (mapSet db k v1) k v2 = mapSet db k v2 := by
  induction db with
  | nil => simp [mapSet]
  | cons p rest ih =>
    obtain ⟨k', v'⟩ := p
    by_cases hk : k' = k
    · subst hk
      simp [mapSet]
    · simp only [mapSet, if_neg hk, ih]

theorem mapSet_length (db : Store) (k : String) (v1 v2 : Meeting) :
    (mapSet db k v1).length = (mapSet db k v2).length := by
  induction db with
  | nil => rfl
  | cons p rest ih =>
    obtain ⟨k', v'⟩ := p
    by_cases hk : k' = k <;> simp [mapSet, hk, ih]

theorem mapGet_mapSet_self (db : Store) (k : String) (v : Meeting) :
    mapGet (mapSet db k v) k = some v := by
  induction db with
  | nil => simp [mapSet, mapGet]
  | cons p rest ih =>
    obtain ⟨k', v'⟩ := p
    by_cases hk : k' = k <;> simp [mapSet, mapGet, hk, ih]

theorem foldl_mapSet_eq : ∀ (ms : List Meeting) (acc : Store),
    (acc.map Prod.fst ++ ms.map Meeting.id).Nodup →
    List.foldl (fun db m => mapSet db m.id m) acc ms
      = acc ++ ms.map (fun m => (m.id, m)) := by
  intro ms
  induction ms with
  | nil => intro acc _; simp
  | cons m rest ih =>
    intro acc hnd
    have hfresh : ∀ p ∈ acc, p.1 ≠ m.id := by
      intro p hp he
      have hdisj := List.disjoint_of_nodup_append hnd
      apply hdisj (List.mem_map_of_mem Prod.fst hp)
      rw [List.map_cons, he]
      exact List.mem_cons_self _ _
    have hstep : mapSet acc m.id m = acc ++ [(m.id, m)] := mapSet_fresh acc m.id m hfresh
    simp only [List.foldl_cons, hstep]
    rw [ih (acc ++ [(m.id, m)]) ?hnd]
    · simp
    case hnd =>
      simp only [List.map_append, List.map_cons, List.map_nil] at hnd ⊢
      simpa [List.append_assoc] using hnd

theorem buildStore_eq (ms : List Meeting) (h : (ms.map Meeting.id).Nodup) :
    buildStore ms = ms.map (fun m => (m.id, m)) := by
  have := foldl_mapSet_eq ms [] (by simpa using h)
  simpa [buildStore] using this

theorem viewsOf_all_str : ∀ ms : List Meeting,
    (∀ m ∈ ms, jsonIsStr m.summary = true) →
    viewsOf (ms.map fun m => (m.id, m)) = some (ms.map meetingView) := by
  intro ms
  induction ms with
  | nil => intro _; rfl
  | cons m rest ih =>
    intro hall
    have hm : meetingView? m = some (meetingView m) := by
      unfold meetingView?
      rw [if_pos (hall m (List.mem_cons_self _ _))]
    simp only [List.map_cons, viewsOf, hm, ih (fun x hx => hall x (List.mem_cons_of_mem _ hx))]

/-! ## Lemmas: object fields and counters -/

theorem jlookup_objInsert_self (fs : List (String × Json)) (k : String) (v : Json) :
    jlookup (objInsert fs k v) k = some v := by
  induction fs with
  | nil => simp [objInsert, jlookup]
  | cons p rest ih =>
    obtain ⟨k', v'⟩ := p
    by_cases hk : k' = k <;> simp [objInsert, jlookup, hk, ih]

theorem jlookup_objInsert_other (fs : List (String × Json)) (k k' : String) (v : Json)
    (h : k' ≠ k) : jlookup (objInsert fs k v) k' = jlookup fs k' := by
  induction fs with
  | nil =>
    simp only [objInsert, jlookup]
    rw [if_neg (Ne.symm h)]
  | cons p rest ih =>
    obtain ⟨k0, v0⟩ := p
    by_cases hk : k0 = k
    · subst hk
      simp only [objInsert, if_pos rfl, jlookup, if_neg (Ne.symm h)]
    · simp only [objInsert, if_neg hk, jlookup, ih]

theorem length_filter_not_add (p : Json → Bool) (l : List Json) :
    ((l.filter fun t => !p t).length + (l.filter p).length) = l.length := by
  induction l with
  | nil => rfl
  | cons x xs ih =>
    by_cases hp : p x <;> simp [List.filter, hp, ih] <;> omega

/-! ## Claim theorems -/

/-- C1: for each of the four analysis kinds, a model reply that does not
decode as JSON after fence stripping yields exactly the documented
fallback object, while the request still succeeds, the meeting is stored,
and every analysis field is a function of its own model reply alone (so a
malformed reply for one kind cannot abort or change the other three). -/
theorem analysis_parse_failure_fallbacks (env : PipelineEnv) (db : Store) (t : String)
    (htr : env.transcriptionResp = .ok t) (hne : t ≠ "") :
    processAudio env db
      = (.ok (successBody env t), mapSet db (natDecimal env.now) (meetingOf env t)) ∧
    ((meetingOf env t).summary = generateMeetingSummary env.summaryResp ∧
     (meetingOf env t).tasks = extractTasks env.tasksResp ∧
     (meetingOf env t).improvements = generateImprovements env.improvementsResp ∧
     (meetingOf env t).factCheck = factCheckTranscription env.factCheckResp) ∧
    (∀ s, env.summaryResp = .ok s → Json.parse (stripFences s) = none →
      (meetingOf env t).summary = summaryFallback) ∧
    (∀ s, env.tasksResp = .ok s → Json.parse (stripFences s) = none →
      (meetingOf env t).tasks = tasksFallback) ∧
    (∀ s, env.improvementsResp = .ok s → Json.parse (stripFences s) = none →
      (meetingOf env t).improvements = improvementsFallback) ∧
    (∀ s, env.factCheckResp = .ok s → Json.parse (stripFences s) = none →
      (meetingOf env t).factCheck = factCheckFallback) := by
  refine ⟨?_, ⟨rfl, rfl, rfl, rfl⟩, ?_, ?_, ?_, ?_⟩
  · simp only [processAudio, htr]
    rw [if_neg hne]
    rfl
  · intro s hs hp
    simp [meetingOf, generateMeetingSummary, hs, hp]
  · intro s hs hp
    simp [meetingOf, extractTasks, hs, hp]
  · intro s hs hp
    simp [meetingOf, generateImprovements, hs, hp]
  · intro s hs hp
    simp [meetingOf, factCheckTranscription, hs, hp]

/-- C1 witness: all four replies malformed on a concrete request. -/
theorem analysis_parse_failure_fallbacks_witness :
    (meetingOf envParseFail "Speaker 1: hello").summary = summaryFallback ∧
    (meetingOf envParseFail "Speaker 1: hello").tasks = tasksFallback ∧
    (meetingOf envParseFail "Speaker 1: hello").improvements = improvementsFallback ∧
    (meetingOf envParseFail "Speaker 1: hello").factCheck = factCheckFallback ∧
    (processAudio envParseFail []).1 = .ok (successBody envParseFail "Speaker 1: hello") := by
  have h := analysis_parse_failure_fallbacks envParseFail [] "Speaker 1: hello" rfl (by decide)
  exact ⟨h.2.2.1 "not json" rfl rfl, h.2.2.2.1 "also not json" rfl rfl,
         h.2.2.2.2.1 "nor this" rfl rfl, h.2.2.2.2.2 "still not json" rfl rfl,
         by rw [h.1]⟩

/-- C2 (amended): whenever the task-extraction model call returns text (and
whatever that text is), the produced value satisfies the four counter
equations, the counters being recomputed from the task list. -/
theorem task_counters_recomputed (t : String) :
    taskCountersOk (extractTasks (.ok t)) := by
  have hfb : taskCountersOk tasksFallback := by
    exact ⟨_, [], rfl, rfl, rfl, rfl, rfl, 0, rfl, rfl⟩
  cases hp : Json.parse (stripFences t) with
  | none => simp only [extractTasks, hp]; exact hfb
  | some data =>
    cases data with
    | null => simp only [extractTasks, hp]; exact hfb
    | bool b => simp only [extractTasks, hp]; exact hfb
    | num m e => simp only [extractTasks, hp]; exact hfb
    | str s => simp only [extractTasks, hp]; exact hfb
    | arr xs => simp only [extractTasks, hp]; exact hfb
    | obj fs =>
      cases hl : jlookup fs "tasks" with
      | none => simp only [extractTasks, hp, hl]; exact hfb
      | some tv =>
        cases tv with
        | null => simp only [extractTasks, hp, hl]; exact hfb
        | bool b => simp only [extractTasks, hp, hl]; exact hfb
        | num m e => simp only [extractTasks, hp, hl]; exact hfb
        | str s => simp only [extractTasks, hp, hl]; exact hfb
        | obj gs => simp only [extractTasks, hp, hl]; exact hfb
        | arr ts =>
          cases hnull : ts.any isNullJson with
          | true => simp only [extractTasks, hp, hl, hnull, if_true]; exact hfb
          | false =>
            simp only [extractTasks, hp, hl, hnull, if_false]
            refine ⟨withCounts fs ts, ts, rfl, ?_, ?_, ?_, ?_,
                    ((ts.filter isUnassigned).length : Int), ?_, ?_⟩
            · simp only [withCounts]
              rw [jlookup_objInsert_other _ _ _ _ (by decide),
                  jlookup_objInsert_other _ _ _ _ (by decide),
                  jlookup_objInsert_other _ _ _ _ (by decide),
                  jlookup_objInsert_other _ _ _ _ (by decide)]
              exact hl
            · simp only [withCounts]
              rw [jlookup_objInsert_other _ _ _ _ (by decide),
                  jlookup_objInsert_other _ _ _ _ (by decide),
                  jlookup_objInsert_other _ _ _ _ (by decide)]
              exact jlookup_objInsert_self _ _ _
            · simp only [withCounts]
              rw [jlookup_objInsert_other _ _ _ _ (by decide),
                  jlookup_objInsert_other _ _ _ _ (by decide)]
              exact jlookup_objInsert_self _ _ _
            · simp only [withCounts]
              rw [jlookup_objInsert_other _ _ _ _ (by decide)]
              exact jlookup_objInsert_self _ _ _
            · simp only [withCounts]
              exact jlookup_objInsert_self _ _ _
            · exact_mod_cast length_filter_not_add isUnassigned ts

/-- C2 counterexample: when the task-extraction gateway call throws, the
produced object is the error shape, which carries no counter fields at
all, so the counter equations of the claim fail on it. -/
theorem task_counters_error_shape_cex :
    extractTasks (.error "boom")
      = Json.obj [("error", .str "Failed to extract tasks"), ("tasks", .arr []),
                  ("followUpItems", .arr [])] ∧
    ¬ taskCountersOk (extractTasks (.error "boom")) := by
  refine ⟨rfl, ?_⟩
  rintro ⟨fs, ts, heq, hts, htot, -⟩
  have heq' : Json.obj [("error", Json.str "Failed to extract tasks"),
      ("tasks", Json.arr []), ("followUpItems", Json.arr [])] = Json.obj fs := heq
  injection heq' with hfs
  subst hfs
  exact Option.noConfusion htot

/-- C3 (amended): wrapping a JSON text in a ```json fence decodes to the
same structure as decoding the text directly, provided the text itself
contains no triple-backtick run (the code strips every fence occurrence,
not only the leading and trailing markers). -/
theorem fenced_roundtrip (x : String) (v : Json)
    (hx : hasTriple x.data = false)
    (h : Json.parse x = some v) :
    Json.parse (stripFences ("\x60\x60\x60json\n" ++ x ++ "\n\x60\x60\x60")) = some v := by
  rw [stripFences_wrapped x hx, h]

/-- C3 witness: a concrete fenced object round-trips. -/
theorem fenced_roundtrip_witness :
    hasTriple ("\x7b\"a\":1\x7d" : String).data = false ∧
    Json.parse "\x7b\"a\":1\x7d" = some (.obj [("a", .num 1 0)]) ∧
    Json.parse (stripFences ("\x60\x60\x60json\n" ++ "\x7b\"a\":1\x7d" ++ "\n\x60\x60\x60"))
      = some (.obj [("a", .num 1 0)]) :=
  ⟨by decide, rfl, fenced_roundtrip "\x7b\"a\":1\x7d" (.obj [("a", .num 1 0)]) (by decide) rfl⟩

/-- C3 counterexample: a valid JSON object text containing a triple
backtick inside a string literal decodes differently after wrapping,
because the global replace also strips the inner occurrence. -/
theorem fenced_roundtrip_cex :
    Json.parse "\x7b\"a\":\"\x60\x60\x60\"\x7d" = some (.obj [("a", .str "\x60\x60\x60")]) ∧
    Json.parse (stripFences
        ("\x60\x60\x60json\n" ++ "\x7b\"a\":\"\x60\x60\x60\"\x7d" ++ "\n\x60\x60\x60"))
      = some (.obj [("a", .str "")]) ∧
    Json.obj [("a", Json.str "\x60\x60\x60")] ≠ Json.obj [("a", Json.str "")] := by
  refine ⟨rfl, rfl, ?_⟩
  intro h
  injection h with hf
  injection hf with hh ht
  injection hh with h1 h2
  injection h2 with h3
  exact absurd h3 (by decide)

/-- C4: an empty transcription makes the whole request fail with a 500 and
leaves the meeting store untouched. -/
theorem transcription_empty_aborts (env : PipelineEnv) (db : Store)
    (h : env.transcriptionResp = .ok "") :
    processAudio env db
      = (.err 500 (.obj [("error", .str "Failed to process audio file"),
                         ("details", .str "Failed to transcribe audio")]), db) := by
  simp [processAudio, h]

/-- C4 witness: a concrete empty-transcription request. -/
theorem transcription_empty_aborts_witness :
    processAudio envEmptyTr []
      = (.err 500 (.obj [("error", .str "Failed to process audio file"),
                         ("details", .str "Failed to transcribe audio")]), []) :=
  transcription_empty_aborts envEmptyTr [] rfl

/-- C5 (amended): for any sequence of puts with pairwise distinct ids and
no deletions, and textual summaries throughout (otherwise the listing
endpoint throws, see the C6 bug), `GET /api/meetings` returns the stored
entries in strictly reverse insertion order. -/
theorem meetings_listed_reverse (ms : List Meeting)
    (hids : (ms.map Meeting.id).Nodup)
    (hsum : ∀ m ∈ ms, jsonIsStr m.summary = true) :
    getMeetings (buildStore ms)
      = .ok (.obj [("success", .bool true),
                   ("meetings", .arr ((ms.map meetingView).reverse))]) := by
  unfold getMeetings
  rw [buildStore_eq ms hids, viewsOf_all_str ms hsum]

/-- C5 witness: two concrete inserts come back most-recent-first. -/
theorem meetings_listed_reverse_witness :
    ((([mtgA, mtgB].map Meeting.id).Nodup) ∧
      (∀ m ∈ [mtgA, mtgB], jsonIsStr m.summary = true)) ∧
    getMeetings (buildStore [mtgA, mtgB])
      = .ok (.obj [("success", .bool true),
                   ("meetings", .arr [meetingView mtgB, meetingView mtgA])]) := by
  refine ⟨⟨by decide, by decide⟩, ?_⟩
  exact meetings_listed_reverse [mtgA, mtgB] (by decide) (by decide)

/-- C5 counterexample: a one-put sequence (distinct ids, no deletions)
whose stored summary is the structured object every normal run produces;
the endpoint then returns a 500 instead of the stored entry. -/
theorem meetings_listed_reverse_cex :
    getMeetings (buildStore [mtgBad]) = .err 500 .null ∧
    getMeetings (buildStore [mtgBad])
      ≠ .ok (.obj [("success", .bool true),
                   ("meetings", .arr [meetingView mtgBad])]) := by
  refine ⟨rfl, ?_⟩
  intro h
  have h' : HttpResult.err 500 .null
      = HttpResult.ok (.obj [("success", .bool true),
                             ("meetings", .arr [meetingView mtgBad])]) := h
  exact HttpResult.noConfusion h'

/-- C6: `GET /api/meetings` computes `m.summary.substring(0, 200)`, but a
stored summary is an object (a parsed analysis or a fallback) in every
normal flow, and an object has no `substring` method, so the handler
throws a `TypeError` and the request fails with a 500 instead of the
documented `{success, meetings}` listing. -/
theorem meetings_listing_crashes :
    getMeetings [(mtgBad.id, mtgBad)] = .err 500 .null := rfl

/-- C7 (amended): on decode success the summary, improvements and
fact-check analyses return the decoded structure as-is with no schema
validation; task extraction however recomputes counters inside the same
try block, so a decoded value without a `tasks` array is replaced by the
fallback rather than returned unmodified. -/
theorem parse_success_passthrough (t : String) (v : Json)
    (h : Json.parse (stripFences t) = some v) :
    generateMeetingSummary (.ok t) = v ∧
    generateImprovements (.ok t) = v ∧
    factCheckTranscription (.ok t) = v ∧
    ((∀ fs ts, v = Json.obj fs → jlookup fs "tasks" ≠ some (Json.arr ts)) →
      extractTasks (.ok t) = tasksFallback) := by
  refine ⟨by simp [generateMeetingSummary, h], by simp [generateImprovements, h],
          by simp [factCheckTranscription, h], ?_⟩
  intro hno
  cases v with
  | null => simp [extractTasks, h]
  | bool b => simp [extractTasks, h]
  | num m e => simp [extractTasks, h]
  | str s => simp [extractTasks, h]
  | arr xs => simp [extractTasks, h]
  | obj fs =>
    cases hl : jlookup fs "tasks" with
    | none => simp [extractTasks, h, hl]
    | some tv =>
      cases tv with
      | null => simp [extractTasks, h, hl]
      | bool b => simp [extractTasks, h, hl]
      | num m e => simp [extractTasks, h, hl]
      | str s => simp [extractTasks, h, hl]
      | obj gs => simp [extractTasks, h, hl]
      | arr ts => exact absurd hl (hno fs ts rfl)

/-- C7 witness: the reply `1` is valid JSON with none of the expected
fields; three analyses return it unmodified, task extraction falls back. -/
theorem parse_success_passthrough_witness :
    generateMeetingSummary (.ok "1") = Json.num 1 0 ∧
    generateImprovements (.ok "1") = Json.num 1 0 ∧
    factCheckTranscription (.ok "1") = Json.num 1 0 ∧
    extractTasks (.ok "1") = tasksFallback := by
  have h := parse_success_passthrough "1" (Json.num 1 0) rfl
  exact ⟨h.1, h.2.1, h.2.2.1, h.2.2.2 (fun fs ts hv => Json.noConfusion hv)⟩

/-- C7 counterexample: `{}` is valid JSON missing the `tasks` array; the
claim says it propagates unmodified, but task extraction replaces it by
the fallback shape. -/
theorem parse_no_validation_cex :
    Json.parse (stripFences "\x7b\x7d") = some (Json.obj []) ∧
    extractTasks (.ok "\x7b\x7d") = tasksFallback ∧
    tasksFallback ≠ Json.obj [] := by
  refine ⟨rfl, rfl, ?_⟩
  intro h
  have h' : Json.obj [("tasks", Json.arr []), ("followUpItems", Json.arr []),
      ("totalTasks", Json.num 0 0), ("highPriorityCount", Json.num 0 0),
      ("assignedCount", Json.num 0 0), ("unassignedCount", Json.num 0 0)]
      = Json.obj [] := h
  injection h' with hf
  exact List.noConfusion hf

/-- C8: the chat prompt carries the context block of the stored meeting
(transcription, summary, task list) followed by the question exactly when
the given meeting id is a non-empty string resolving in the store;
otherwise the question is sent alone; in both cases the fixed English
directive is appended and the reply text of the gateway is returned
unmodified. -/
theorem chat_context_resolution (db : Store) (gw : String → GatewayOutcome)
    (msg mid : String) (hmsg : msg ≠ "") :
    (∀ m, mid ≠ "" → mapGet db mid = some m →
      chatPrompt (some mid) msg db = chatContextBlock m ++ msg ++ englishDirective) ∧
    (chatPrompt none msg db = msg ++ englishDirective) ∧
    (mapGet db mid = none → chatPrompt (some mid) msg db = msg ++ englishDirective) ∧
    (∀ t, gw (chatPrompt (some mid) msg db) = .ok t →
      chatHandler (some msg) (some mid) db gw
        = .ok (.obj [("success", .bool true), ("response", .str t)])) := by
  refine ⟨?_, ?_, ?_, ?_⟩
  · intro m hm hget
    simp [chatPrompt, hm, hget]
  · simp [chatPrompt]
  · intro hget
    by_cases hm : mid = "" <;> simp [chatPrompt, hm, hget]
  · intro t hgw
    simp [chatHandler, hmsg, hgw]

/-- C8 witness: a resolving id gets the context block, an unknown id gets
the bare question, and the gateway text is passed through. -/
theorem chat_context_resolution_witness :
    chatPrompt (some "1700000000013") "What was decided?" [("1700000000013", mtgChat)]
      = chatContextBlock mtgChat ++ "What was decided?" ++ englishDirective ∧
    chatPrompt (some "9999") "What was decided?" [("1700000000013", mtgChat)]
      = "What was decided?" ++ englishDirective ∧
    chatHandler (some "What was decided?") (some "9999") [("1700000000013", mtgChat)]
        (fun _ => .ok "The launch was approved.")
      = .ok (.obj [("success", .bool true), ("response", .str "The launch was approved.")]) := by
  have h := chat_context_resolution [("1700000000013", mtgChat)]
    (fun _ => .ok "The launch was approved.") "What was decided?" "1700000000013" (by decide)
  have h9 := chat_context_resolution [("1700000000013", mtgChat)]
    (fun _ => .ok "The launch was approved.") "What was decided?" "9999" (by decide)
  exact ⟨h.1 mtgChat (by decide) rfl, h9.2.2.1 rfl, h9.2.2.2 "The launch was approved." rfl⟩

/-- C9: once transcription succeeds, a gateway failure in any of the four
analysis calls is caught inside that analysis and replaced by the error
object of that kind; the pipeline still stores the meeting and answers 200. -/
theorem analysis_gateway_error_nonfatal (env : PipelineEnv) (db : Store) (t : String)
    (htr : env.transcriptionResp = .ok t) (hne : t ≠ "") :
    processAudio env db
      = (.ok (successBody env t), mapSet db (natDecimal env.now) (meetingOf env t)) ∧
    (∀ msg, env.summaryResp = .error msg →
      (meetingOf env t).summary
        = .obj [("error", .str "Failed to generate summary"), ("message", .str msg)]) ∧
    (∀ msg, env.tasksResp = .error msg →
      (meetingOf env t).tasks
        = .obj [("error", .str "Failed to extract tasks"), ("tasks", .arr []),
                ("followUpItems", .arr [])]) ∧
    (∀ msg, env.improvementsResp = .error msg →
      (meetingOf env t).improvements
        = .obj [("error", .str "Failed to generate improvements"), ("message", .str msg)]) ∧
    (∀ msg, env.factCheckResp = .error msg →
      (meetingOf env t).factCheck
        = .obj [("error", .str "Failed to perform fact-check"), ("message", .str msg)]) := by
  refine ⟨?_, ?_, ?_, ?_, ?_⟩
  · simp only [processAudio, htr]
    rw [if_neg hne]
    rfl
  · intro msg hs
    simp [meetingOf, generateMeetingSummary, hs]
  · intro msg hs
    simp [meetingOf, extractTasks, hs]
  · intro msg hs
    simp [meetingOf, generateImprovements, hs]
  · intro msg hs
    simp [meetingOf, factCheckTranscription, hs]

/-- C9 witness: all four analysis calls throw on a concrete request; the
request still succeeds and stores the meeting. -/
theorem analysis_gateway_error_nonfatal_witness :
    (processAudio envGatewayErr []).1
      = .ok (successBody envGatewayErr "Speaker 1: numbers") ∧
    (meetingOf envGatewayErr "Speaker 1: numbers").summary
      = .obj [("error", .str "Failed to generate summary"),
              ("message", .str "429 rate limit")] ∧
    (meetingOf envGatewayErr "Speaker 1: numbers").tasks
      = .obj [("error", .str "Failed to extract tasks"), ("tasks", .arr []),
              ("followUpItems", .arr [])] ∧
    (meetingOf envGatewayErr "Speaker 1: numbers").improvements
      = .obj [("error", .str "Failed to generate improvements"),
              ("message", .str "429 rate limit")] ∧
    (meetingOf envGatewayErr "Speaker 1: numbers").factCheck
      = .obj [("error", .str "Failed to perform fact-check"),
              ("message", .str "429 rate limit")] := by
  have h := analysis_gateway_error_nonfatal envGatewayErr [] "Speaker 1: numbers" rfl (by decide)
  exact ⟨by rw [h.1], h.2.1 "429 rate limit" rfl, h.2.2.1 "429 rate limit" rfl,
         h.2.2.2.1 "429 rate limit" rfl, h.2.2.2.2 "429 rate limit" rfl⟩

/-- C10: the meeting id is the decimal string of the `Date.now()` value
captured at the start of the request; two ids coincide exactly when the
captured clock values do; and a second successful upload in the same
millisecond overwrites the first meeting record in place (the store does
not grow and lookup returns the later record). -/
theorem meeting_id_clock_semantics (env1 env2 : PipelineEnv) (db : Store) (t1 t2 : String)
    (h1 : env1.transcriptionResp = .ok t1) (hn1 : t1 ≠ "")
    (h2 : env2.transcriptionResp = .ok t2) (hn2 : t2 ≠ "") :
    (meetingOf env1 t1).id = natDecimal env1.now ∧
    (natDecimal env1.now = natDecimal env2.now ↔ env1.now = env2.now) ∧
    (env1.now = env2.now →
      (processAudio env2 (processAudio env1 db).2).2
          = mapSet db (natDecimal env2.now) (meetingOf env2 t2) ∧
      mapGet (processAudio env2 (processAudio env1 db).2).2 (natDecimal env2.now)
          = some (meetingOf env2 t2) ∧
      (processAudio env2 (processAudio env1 db).2).2.length
          = (processAudio env1 db).2.length) := by
  have e1 : (processAudio env1 db).2
      = mapSet db (natDecimal env1.now) (meetingOf env1 t1) := by
    simp only [processAudio, h1]
    rw [if_neg hn1]
    rfl
  have e2 : (processAudio env2 (processAudio env1 db).2).2
      = mapSet (processAudio env1 db).2 (natDecimal env2.now) (meetingOf env2 t2) := by
    simp only [processAudio, h2]
    rw [if_neg hn2]
    rfl
  refine ⟨rfl, ⟨fun h => natDecimal_injective h, fun h => by rw [h]⟩, ?_⟩
  intro hnow
  rw [e2, e1, hnow]
  refine ⟨mapSet_overwrite db _ _ _, ?_, ?_⟩
  · rw [mapSet_overwrite db _ _ _]
    exact mapGet_mapSet_self db _ _
  · rw [mapSet_overwrite db _ _ _]
    exact mapSet_length db _ _ _

/-- C10 witness: two concrete uploads in the same millisecond share the id
and the second overwrites the first. -/
theorem meeting_id_clock_semantics_witness :
    (natDecimal envUpload1.now = natDecimal envUpload2.now ↔ envUpload1.now = envUpload2.now) ∧
    mapGet (processAudio envUpload2 (processAudio envUpload1 []).2).2 (natDecimal envUpload2.now)
      = some (meetingOf envUpload2 "second meeting") ∧
    (processAudio envUpload2 (processAudio envUpload1 []).2).2.length
      = (processAudio envUpload1 []).2.length := by
  have h := meeting_id_clock_semantics envUpload1 envUpload2 [] "first meeting" "second meeting"
    rfl (by decide) rfl (by decide)
  exact ⟨h.2.1, (h.2.2 rfl).2.1, (h.2.2 rfl).2.2⟩
